import Mathlib

/-!
# Verification of the UMaT finance core

Shallow embedding of the finance application's core logic: the SQL schema
constraints, row-level-security policies and triggers of
`supabase/migrations/20250329153105_soft_waterfall.sql`, together with the
client calls that drive them (`handleStatusChange` in
`src/pages/Transactions.tsx` and transaction creation in `src/lib/store.ts`).

Conventions of the embedding:
* `decimal(10,2)` amounts and balances are integers (minor units / cents).
* uuids are `Nat` identifiers; `timestamptz` values are `Nat` instants.
* A SQL statement is a function `... → Except DbError DB`; an `Except.error`
  models the statement (and the enclosing transaction, triggers included)
  aborting with no state change, as PostgreSQL does on a constraint
  violation inside an `AFTER` trigger.
-/

namespace FinanceApp

/-- `user_role` enum: `('admin', 'staff', 'student')`. -/
inductive Role where
  | admin
  | staff
  | student
deriving DecidableEq

/-- `transaction_type` enum: `('payment', 'fee', 'fine')`. -/
inductive TxType where
  | payment
  | fee
  | fine
deriving DecidableEq

/-- `transaction_status` enum: `('pending', 'approved', 'rejected')`. -/
inductive TxStatus where
  | pending
  | approved
  | rejected
deriving DecidableEq

/-- Row of the `users` table. -/
structure User where
  id : Nat
  role : Role
  full_name : String
  student_id : Option String
  department : Option String
deriving DecidableEq

/-- The `student_id_required` CHECK constraint on `users`:
`(role = 'student' AND student_id IS NOT NULL) OR (role != 'student')`. -/
def student_id_required (u : User) : Bool :=
  (u.role == Role.student && u.student_id.isSome) || u.role != Role.student

/-- Row of the `transactions` table. -/
structure Transaction where
  id : Nat
  user_id : Nat
  type : TxType
  amount : Int
  description : String
  status : TxStatus
  approved_by : Option Nat
  created_at : Nat
deriving DecidableEq

/-- Row of the `accounts` table. -/
structure Account where
  id : Nat
  user_id : Nat
  balance : Int
  last_updated : Nat
  created_at : Nat
deriving DecidableEq

/-- `row_to_json(NEW)` / `row_to_json(OLD)` snapshots stored by
`log_activity` in the `details` jsonb. -/
inductive Snapshot where
  | tx (t : Transaction)
  | acct (a : Account)
deriving DecidableEq

/-- The jsonb object built by `log_activity`:
`jsonb_build_object('table', ..., 'operation', ..., 'record_id', ...,
'new_data', row_to_json(NEW), 'old_data', row_to_json(OLD))`. -/
structure LogDetails where
  tableName : String
  operation : String
  record_id : Nat
  new_data : Option Snapshot
  old_data : Option Snapshot
deriving DecidableEq

/-- Row of the `activity_logs` table. -/
structure ActivityLog where
  user_id : Nat
  action : String
  details : LogDetails
deriving DecidableEq

/-- Errors a SQL statement can abort with in this embedding: a CHECK
constraint violation (carrying the constraint name), a row-level-security
`WITH CHECK` rejection, or a primary-key conflict. -/
inductive DbError where
  | checkViolation (constraintName : String)
  | rlsViolation
  | pkViolation
deriving DecidableEq

/-- Database state: the three tables the core logic touches. -/
structure DB where
  transactions : List Transaction
  accounts : List Account
  logs : List ActivityLog
deriving DecidableEq

/-- Audit record written by `log_activity` when the
`log_transactions_trigger` fires for an UPDATE of a transaction row:
`action = TG_TABLE_NAME || '_' || TG_OP`, `user_id = NEW.user_id`,
snapshots from `OLD` and `NEW`. -/
def txUpdateLog (oldT newT : Transaction) : ActivityLog :=
  { user_id := newT.user_id
    action := "transactions_UPDATE"
    details :=
      { tableName := "transactions"
        operation := "UPDATE"
        record_id := newT.id
        new_data := some (.tx newT)
        old_data := some (.tx oldT) } }

/-- Audit record for an INSERT of a transaction row (`OLD` is NULL). -/
def txInsertLog (newT : Transaction) : ActivityLog :=
  { user_id := newT.user_id
    action := "transactions_INSERT"
    details :=
      { tableName := "transactions"
        operation := "INSERT"
        record_id := newT.id
        new_data := some (.tx newT)
        old_data := none } }

/-- Audit record written by `log_accounts_trigger` for an UPDATE of an
account row. -/
def acctUpdateLog (oldA newA : Account) : ActivityLog :=
  { user_id := newA.user_id
    action := "accounts_UPDATE"
    details :=
      { tableName := "accounts"
        operation := "UPDATE"
        record_id := newA.id
        new_data := some (.acct newA)
        old_data := some (.acct oldA) } }

/-- The row update performed inside `update_account_balance`:
`SET balance = balance + delta, last_updated = now()`. -/
def applyDelta (delta : Int) (now : Nat) (a : Account) : Account :=
  { a with balance := a.balance + delta, last_updated := now }

/-- `UPDATE accounts SET balance = balance + delta, last_updated = now()
WHERE user_id = uid`, with the `valid_balance` CHECK (`balance >= 0`)
enforced on every written row and the `log_accounts_trigger` audit record
produced for every updated row.  Returns the new `accounts` table and the
audit records, or aborts on a constraint violation. -/
def updateAccounts (uid : Nat) (delta : Int) (now : Nat) (accts : List Account) :
    Except DbError (List Account × List ActivityLog) :=
  if accts.any (fun a => a.user_id == uid && decide (a.balance + delta < 0)) then
    .error (.checkViolation "valid_balance")
  else
    .ok (accts.map (fun a => if a.user_id == uid then applyDelta delta now a else a),
         (accts.filter (fun a => a.user_id == uid)).map
           (fun a => acctUpdateLog a (applyDelta delta now a)))

/-- Run `updateAccounts` against the whole database state. -/
def applyAcctUpdate (uid : Nat) (delta : Int) (now : Nat) (db : DB) :
    Except DbError DB :=
  match updateAccounts uid delta now db.accounts with
  | .error e => .error e
  | .ok (accts, newLogs) =>
      .ok { db with accounts := accts, logs := db.logs ++ newLogs }

/-- The trigger function `update_account_balance()`: when a transaction row
goes `pending → approved`, credit the owner's account by `amount` for a
payment and debit it by `amount` for a fee or a fine; otherwise do
nothing.  (The `update_balance_trigger` WHEN clause repeats the same
`NEW.status = 'approved' AND OLD.status = 'pending'` condition.) -/
def update_account_balance (oldT newT : Transaction) (now : Nat) (db : DB) :
    Except DbError DB :=
  if newT.status = TxStatus.approved ∧ oldT.status = TxStatus.pending then
    match newT.type with
    | .payment => applyAcctUpdate newT.user_id newT.amount now db
    | .fee => applyAcctUpdate newT.user_id (-newT.amount) now db
    | .fine => applyAcctUpdate newT.user_id (-newT.amount) now db
  else
    .ok db

/-- Fire the AFTER UPDATE row triggers on `transactions` for each updated
row, in trigger-name order: `log_transactions_trigger` (audit record) then
`update_balance_trigger`. -/
def fireUpdateTriggers (newStatus : TxStatus) (now : Nat) :
    List Transaction → DB → Except DbError DB
  | [], db => .ok db
  | oldT :: rest, db =>
      let newT := { oldT with status := newStatus }
      let db1 := { db with logs := db.logs ++ [txUpdateLog oldT newT] }
      match update_account_balance oldT newT now db1 with
      | .error e => .error e
      | .ok db2 => fireUpdateTriggers newStatus now rest db2

/-- `handleStatusChange` (Transactions.tsx): `UPDATE transactions SET
status = newStatus WHERE id = txId`.  Row-level security: the only UPDATE
policy on `transactions` ("Admins and staff can approve transactions")
makes rows visible for update exactly when the actor's role is admin or
staff; otherwise the statement matches zero rows and succeeds without
effect.  Each updated row fires the audit and balance triggers. -/
def setTransactionStatus (txId : Nat) (newStatus : TxStatus) (actorRole : Role)
    (now : Nat) (db : DB) : Except DbError DB :=
  if actorRole = Role.admin ∨ actorRole = Role.staff then
    let matched := db.transactions.filter (fun t => t.id == txId)
    fireUpdateTriggers newStatus now matched
      { db with
        transactions :=
          db.transactions.map
            (fun t => if t.id == txId then { t with status := newStatus } else t) }
  else
    .ok db

/-- Transaction creation (`handleNewTransaction` in Transactions.tsx and
`createTransaction` in store.ts): `INSERT INTO transactions (user_id, type,
amount, description, status) VALUES (..., 'pending')`.  Row-level security
("Users can create their own transactions") requires `user_id =
auth.uid()`; the `positive_amount` CHECK requires `amount > 0`; the
primary key must be fresh.  The insert fires `log_transactions_trigger`. -/
def createTransaction (txId ownerId : Nat) (ty : TxType) (amount : Int)
    (descr : String) (actorId : Nat) (now : Nat) (db : DB) :
    Except DbError DB :=
  if ownerId ≠ actorId then
    .error .rlsViolation
  else if db.transactions.any (fun t => t.id == txId) then
    .error .pkViolation
  else if amount ≤ 0 then
    .error (.checkViolation "positive_amount")
  else
    let t : Transaction :=
      { id := txId, user_id := ownerId, type := ty, amount := amount,
        description := descr, status := TxStatus.pending, approved_by := none,
        created_at := now }
    .ok { db with
          transactions := db.transactions ++ [t],
          logs := db.logs ++ [txInsertLog t] }

/-- Signed balance delta a transaction applies on approval: `+amount` for a
payment, `-amount` for a fee or fine (the two branches of
`update_account_balance`). -/
def txDelta (t : Transaction) : Int :=
  match t.type with
  | .payment => t.amount
  | .fee => -t.amount
  | .fine => -t.amount

/-- One step of the abstract operation sequence: a client call that either
creates a transaction or changes a transaction's status. -/
inductive Op where
  | create (txId ownerId : Nat) (ty : TxType) (amount : Int) (descr : String)
      (actorId now : Nat)
  | setStatus (txId : Nat) (newStatus : TxStatus) (actorRole : Role) (now : Nat)

/-- Execute one operation as the corresponding SQL statement. -/
def runOp (db : DB) : Op → Except DbError DB
  | .create txId ownerId ty amount descr actorId now =>
      createTransaction txId ownerId ty amount descr actorId now db
  | .setStatus txId s r now => setTransactionStatus txId s r now db

/-- A failed statement is rolled back: on error the database is unchanged. -/
def applyOp (db : DB) (op : Op) : DB :=
  match runOp db op with
  | .ok db' => db'
  | .error _ => db

/-- Run a sequence of operations. -/
def runOps (db : DB) (ops : List Op) : DB := ops.foldl applyOp db

/-! ## Generic key-uniqueness lemmas -/

theorem filter_key_singleton {α : Type} (f : α → Nat) :
    ∀ (l : List α), (l.map f).Nodup → ∀ t ∈ l,
      l.filter (fun x => f x == f t) = [t] := by
  intro l
  induction l with
  | nil => intro _ t ht; cases ht
  | cons x xs ih =>
    intro hnd t ht
    rw [List.map_cons, List.nodup_cons] at hnd
    rcases List.mem_cons.mp ht with rfl | hmem
    · rw [List.filter_cons_of_pos (by simp)]
      have hnil : xs.filter (fun y => f y == f t) = [] := by
        rw [List.filter_eq_nil_iff]
        intro a ha hfa
        exact hnd.1 (List.mem_map.mpr ⟨a, ha, (by simpa using hfa)⟩)
      rw [hnil]
    · have hne : f x ≠ f t := by
        intro heq
        exact hnd.1 (heq ▸ List.mem_map.mpr ⟨t, hmem, rfl⟩)
      rw [List.filter_cons_of_neg (by simpa using hne)]
      exact ih hnd.2 t hmem

theorem filter_key_cases {α : Type} (f : α → Nat) (l : List α)
    (hnd : (l.map f).Nodup) (k : Nat) :
    l.filter (fun x => f x == k) = [] ∨
      ∃ t ∈ l, f t = k ∧ l.filter (fun x => f x == k) = [t] := by
  by_cases h : ∃ t ∈ l, f t = k
  · rcases h with ⟨t, htl, htk⟩
    right
    exact ⟨t, htl, htk, htk ▸ filter_key_singleton f l hnd t htl⟩
  · left
    rw [List.filter_eq_nil_iff]
    intro a ha hfa
    exact h ⟨a, ha, by simpa using hfa⟩

theorem key_unique {α : Type} (f : α → Nat) (l : List α)
    (hnd : (l.map f).Nodup) {a b : α} (ha : a ∈ l) (hb : b ∈ l)
    (hk : f a = f b) : a = b :=
  List.inj_on_of_nodup_map hnd ha hb hk

/-! ## Shape lemmas for the operations -/

theorem updateAccounts_ok_of_funds (uid : Nat) (delta : Int) (now : Nat)
    (accts : List Account)
    (hfunds : ∀ a ∈ accts, a.user_id = uid → 0 ≤ a.balance + delta) :
    updateAccounts uid delta now accts =
      .ok (accts.map (fun a => if a.user_id == uid then applyDelta delta now a else a),
           (accts.filter (fun a => a.user_id == uid)).map
             (fun a => acctUpdateLog a (applyDelta delta now a))) := by
  unfold updateAccounts
  rw [if_neg]
  intro hany
  rw [List.any_eq_true] at hany
  rcases hany with ⟨a, ha, hpa⟩
  simp only [Bool.and_eq_true, beq_iff_eq, decide_eq_true_eq] at hpa
  exact absurd (hfunds a ha hpa.1) (not_le.mpr hpa.2)

theorem updateAccounts_err_of_overdraft (uid : Nat) (delta : Int) (now : Nat)
    (accts : List Account) (a : Account) (ha : a ∈ accts)
    (hu : a.user_id = uid) (hneg : a.balance + delta < 0) :
    updateAccounts uid delta now accts = .error (.checkViolation "valid_balance") := by
  unfold updateAccounts
  rw [if_pos]
  rw [List.any_eq_true]
  exact ⟨a, ha, by simp [hu, hneg]⟩

theorem updateAccounts_nonneg (uid : Nat) (delta : Int) (now : Nat)
    (accts accts' : List Account) (lgs : List ActivityLog)
    (h : updateAccounts uid delta now accts = .ok (accts', lgs))
    (hpos : ∀ a ∈ accts, 0 ≤ a.balance) :
    ∀ a ∈ accts', 0 ≤ a.balance := by
  unfold updateAccounts at h
  split at h
  · exact absurd h (by simp)
  · rename_i hguard
    have hnov : ∀ a ∈ accts, a.user_id = uid → ¬(a.balance + delta < 0) := by
      intro a ha hu hneg
      exact hguard (List.any_eq_true.mpr ⟨a, ha, by simp [hu, hneg]⟩)
    injection h with h
    injection h with h1 h2
    subst h1
    intro a' ha'
    rcases List.mem_map.mp ha' with ⟨a, ha, rfl⟩
    by_cases hu : a.user_id = uid
    · simp only [hu, beq_self_eq_true, if_pos, applyDelta]
      exact le_of_not_lt (hnov a ha hu)
    · simpa [hu] using hpos a ha

theorem applyAcctUpdate_transactions (uid : Nat) (delta : Int) (now : Nat)
    (db db' : DB) (h : applyAcctUpdate uid delta now db = .ok db') :
    db'.transactions = db.transactions := by
  unfold applyAcctUpdate at h
  split at h
  · exact absurd h (by simp)
  · injection h with h
    subst h
    rfl

theorem update_account_balance_transactions (oldT newT : Transaction) (now : Nat)
    (db db' : DB) (h : update_account_balance oldT newT now db = .ok db') :
    db'.transactions = db.transactions := by
  unfold update_account_balance at h
  split at h
  · cases hty : newT.type <;> rw [hty] at h <;>
      exact applyAcctUpdate_transactions _ _ _ _ _ h
  · injection h with h
    subst h
    rfl

theorem fireUpdateTriggers_transactions (s : TxStatus) (now : Nat) :
    ∀ (l : List Transaction) (db db' : DB),
      fireUpdateTriggers s now l db = .ok db' →
      db'.transactions = db.transactions := by
  intro l
  induction l with
  | nil =>
    intro db db' h
    injection h with h
    subst h
    rfl
  | cons oldT rest ih =>
    intro db db' h
    unfold fireUpdateTriggers at h
    simp only at h
    split at h
    · exact absurd h (by simp)
    · rename_i db2 heq
      rw [ih _ _ h, update_account_balance_transactions _ _ _ _ _ heq]

theorem update_account_balance_noop (oldT newT : Transaction) (now : Nat)
    (db : DB) (h : ¬(newT.status = TxStatus.approved ∧ oldT.status = TxStatus.pending)) :
    update_account_balance oldT newT now db = .ok db := by
  unfold update_account_balance
  rw [if_neg h]

theorem fireUpdateTriggers_singleton_noop (oldT : Transaction) (s : TxStatus)
    (now : Nat) (db : DB)
    (h : ¬(s = TxStatus.approved ∧ oldT.status = TxStatus.pending)) :
    fireUpdateTriggers s now [oldT] db =
      .ok { db with logs := db.logs ++ [txUpdateLog oldT { oldT with status := s }] } := by
  simp only [fireUpdateTriggers]
  rw [update_account_balance_noop _ _ _ _ (fun hc => h ⟨hc.1, hc.2⟩)]

theorem update_account_balance_fires (oldT : Transaction) (now : Nat) (db : DB)
    (hpend : oldT.status = TxStatus.pending) :
    update_account_balance oldT { oldT with status := TxStatus.approved } now db =
      applyAcctUpdate oldT.user_id (txDelta oldT) now db := by
  unfold update_account_balance
  rw [if_pos ⟨rfl, hpend⟩]
  cases hty : oldT.type <;> simp [txDelta, hty]

theorem fireUpdateTriggers_singleton_approve (t : Transaction) (now : Nat)
    (db : DB) (hpend : t.status = TxStatus.pending) :
    fireUpdateTriggers TxStatus.approved now [t] db =
      applyAcctUpdate t.user_id (txDelta t) now
        { db with logs := db.logs ++ [txUpdateLog t { t with status := TxStatus.approved }] } := by
  simp only [fireUpdateTriggers]
  rw [update_account_balance_fires t now _ hpend]
  cases h : applyAcctUpdate t.user_id (txDelta t) now
      { db with logs := db.logs ++ [txUpdateLog t { t with status := TxStatus.approved }] } <;>
    simp [h, fireUpdateTriggers]

theorem applyAcctUpdate_single (uid : Nat) (delta : Int) (now : Nat)
    (txs : List Transaction) (accts : List Account) (lgs : List ActivityLog)
    (a : Account) (ha : a ∈ accts) (hu : a.user_id = uid)
    (hnda : (accts.map Account.user_id).Nodup)
    (hfunds : 0 ≤ a.balance + delta) :
    applyAcctUpdate uid delta now { transactions := txs, accounts := accts, logs := lgs } =
      .ok { transactions := txs,
            accounts := accts.map
              (fun b => if b.user_id == uid then applyDelta delta now b else b),
            logs := lgs ++ [acctUpdateLog a (applyDelta delta now a)] } := by
  subst hu
  have hfunds' : ∀ b ∈ accts, b.user_id = a.user_id →
      0 ≤ b.balance + delta := by
    intro b hb hbu
    have hba : b = a := key_unique Account.user_id accts hnda hb ha hbu
    rw [hba]
    exact hfunds
  have hfilter : accts.filter (fun b => b.user_id == a.user_id) = [a] :=
    filter_key_singleton Account.user_id accts hnda a ha
  unfold applyAcctUpdate
  rw [show (DB.accounts { transactions := txs, accounts := accts, logs := lgs }) = accts from rfl,
    updateAccounts_ok_of_funds _ delta now accts hfunds', hfilter]
  rfl

/-- Full characterization of a successful approval of a pending transaction
`t` owned by the holder of account `a`: the transaction row becomes
approved, the owner's account gets the signed delta and a fresh
`last_updated`, and exactly two audit records are appended (one for the
transaction update, one for the account update). -/
theorem setStatus_approve_pending_eq
    (db : DB) (t : Transaction) (a : Account) (actorRole : Role) (now : Nat)
    (hrole : actorRole = Role.admin ∨ actorRole = Role.staff)
    (ht : t ∈ db.transactions) (hpend : t.status = TxStatus.pending)
    (hndt : (db.transactions.map Transaction.id).Nodup)
    (ha : a ∈ db.accounts) (hau : a.user_id = t.user_id)
    (hnda : (db.accounts.map Account.user_id).Nodup)
    (hfunds : 0 ≤ a.balance + txDelta t) :
    setTransactionStatus t.id TxStatus.approved actorRole now db =
      .ok { transactions := db.transactions.map
              (fun x => if x.id == t.id then { x with status := TxStatus.approved } else x),
            accounts := db.accounts.map
              (fun b => if b.user_id == t.user_id then applyDelta (txDelta t) now b else b),
            logs := db.logs ++
              [txUpdateLog t { t with status := TxStatus.approved },
               acctUpdateLog a (applyDelta (txDelta t) now a)] } := by
  have hm : db.transactions.filter (fun x => x.id == t.id) = [t] :=
    filter_key_singleton Transaction.id db.transactions hndt t ht
  simp only [setTransactionStatus]
  rw [if_pos hrole, hm, fireUpdateTriggers_singleton_approve t now _ hpend]
  dsimp only
  rw [applyAcctUpdate_single t.user_id (txDelta t) now _ _ _ a ha hau hnda hfunds]
  simp

/-- A status update that matches one row but does not satisfy the balance
trigger's `pending → approved` condition only rewrites the status and
appends the single transaction audit record; accounts are untouched. -/
theorem setStatus_noop_eq
    (db : DB) (t : Transaction) (s : TxStatus) (actorRole : Role) (now : Nat)
    (hrole : actorRole = Role.admin ∨ actorRole = Role.staff)
    (ht : t ∈ db.transactions)
    (hndt : (db.transactions.map Transaction.id).Nodup)
    (hnofire : ¬(s = TxStatus.approved ∧ t.status = TxStatus.pending)) :
    setTransactionStatus t.id s actorRole now db =
      .ok { transactions := db.transactions.map
              (fun x => if x.id == t.id then { x with status := s } else x),
            accounts := db.accounts,
            logs := db.logs ++ [txUpdateLog t { t with status := s }] } := by
  have hm : db.transactions.filter (fun x => x.id == t.id) = [t] :=
    filter_key_singleton Transaction.id db.transactions hndt t ht
  simp only [setTransactionStatus]
  rw [if_pos hrole, hm, fireUpdateTriggers_singleton_noop t s now _ hnofire]

theorem updateAccounts_nomatch (uid : Nat) (delta : Int) (now : Nat)
    (accts : List Account) (h : ∀ a ∈ accts, a.user_id ≠ uid) :
    updateAccounts uid delta now accts = .ok (accts, []) := by
  unfold updateAccounts
  rw [if_neg]
  · rw [List.filter_eq_nil_iff.mpr (by intro a ha; simpa using h a ha),
      List.map_congr_left (g := id) (by intro a ha; simp [h a ha]), List.map_id]
    rfl
  · intro hany
    rcases List.any_eq_true.mp hany with ⟨a, ha, hpa⟩
    simp only [Bool.and_eq_true, beq_iff_eq] at hpa
    exact h a ha hpa.1

/-- Approving a pending transaction whose owner has no account row: the
balance trigger's `UPDATE accounts` matches zero rows and the statement
succeeds with the accounts table untouched (only the transaction audit
record is appended). -/
theorem setStatus_approve_noacct_eq
    (db : DB) (t : Transaction) (actorRole : Role) (now : Nat)
    (hrole : actorRole = Role.admin ∨ actorRole = Role.staff)
    (ht : t ∈ db.transactions) (hpend : t.status = TxStatus.pending)
    (hndt : (db.transactions.map Transaction.id).Nodup)
    (hnoacct : ∀ a ∈ db.accounts, a.user_id ≠ t.user_id) :
    setTransactionStatus t.id TxStatus.approved actorRole now db =
      .ok { transactions := db.transactions.map
              (fun x => if x.id == t.id then { x with status := TxStatus.approved } else x),
            accounts := db.accounts,
            logs := db.logs ++ [txUpdateLog t { t with status := TxStatus.approved }] } := by
  have hm : db.transactions.filter (fun x => x.id == t.id) = [t] :=
    filter_key_singleton Transaction.id db.transactions hndt t ht
  simp only [setTransactionStatus]
  rw [if_pos hrole, hm, fireUpdateTriggers_singleton_approve t now _ hpend]
  dsimp only
  unfold applyAcctUpdate
  dsimp only
  rw [updateAccounts_nomatch t.user_id (txDelta t) now db.accounts hnoacct]
  simp

theorem applyAcctUpdate_err (uid : Nat) (delta : Int) (now : Nat) (db : DB)
    (e : DbError) (h : updateAccounts uid delta now db.accounts = .error e) :
    applyAcctUpdate uid delta now db = .error e := by
  unfold applyAcctUpdate
  rw [h]

theorem setStatus_unauthorized (txId : Nat) (s : TxStatus) (actorRole : Role)
    (now : Nat) (db : DB)
    (hrole : ¬(actorRole = Role.admin ∨ actorRole = Role.staff)) :
    setTransactionStatus txId s actorRole now db = .ok db := by
  unfold setTransactionStatus
  rw [if_neg hrole]

theorem map_setStatus_nomatch (txId : Nat) (s : TxStatus) (l : List Transaction)
    (h : ∀ x ∈ l, ¬((x.id == txId) = true)) :
    l.map (fun x => if x.id == txId then { x with status := s } else x) = l := by
  rw [List.map_congr_left (g := id) (fun x hx => by simp [h x hx]), List.map_id]

theorem setStatus_nomatch_eq (txId : Nat) (s : TxStatus) (actorRole : Role)
    (now : Nat) (db : DB)
    (hm : db.transactions.filter (fun x => x.id == txId) = []) :
    setTransactionStatus txId s actorRole now db = .ok db := by
  unfold setTransactionStatus
  split
  · rw [hm, map_setStatus_nomatch txId s db.transactions (List.filter_eq_nil_iff.mp hm)]
    simp [fireUpdateTriggers]
  · rfl

theorem setStatusFun_id (txId : Nat) (s : TxStatus) (x : Transaction) :
    ((fun y => if y.id == txId then { y with status := s } else y) x).id = x.id := by
  by_cases h : (x.id == txId) = true <;> simp [h]

theorem filter_id_map_setStatus (txId : Nat) (s : TxStatus) (l : List Transaction) :
    (l.map (fun x => if x.id == txId then { x with status := s } else x)).filter
        (fun x => x.id == txId)
      = (l.filter (fun x => x.id == txId)).map
          (fun x => if x.id == txId then { x with status := s } else x) := by
  rw [List.filter_map]
  congr 1
  apply List.filter_congr
  intro x _
  simp only [Function.comp]
  by_cases h : (x.id == txId) = true <;> simp [h]

theorem updateAccounts_nonneg_db (uid : Nat) (delta : Int) (now : Nat)
    (db db' : DB) (h : applyAcctUpdate uid delta now db = .ok db')
    (hpos : ∀ a ∈ db.accounts, 0 ≤ a.balance) :
    ∀ a ∈ db'.accounts, 0 ≤ a.balance := by
  unfold applyAcctUpdate at h
  cases hu : updateAccounts uid delta now db.accounts with
  | error e => rw [hu] at h; exact absurd h (by simp)
  | ok p =>
    obtain ⟨accts, lgs⟩ := p
    rw [hu] at h
    injection h with h
    subst h
    exact updateAccounts_nonneg uid delta now db.accounts accts lgs hu hpos

theorem update_account_balance_nonneg (oldT newT : Transaction) (now : Nat)
    (db db' : DB) (h : update_account_balance oldT newT now db = .ok db')
    (hpos : ∀ a ∈ db.accounts, 0 ≤ a.balance) :
    ∀ a ∈ db'.accounts, 0 ≤ a.balance := by
  unfold update_account_balance at h
  split at h
  · cases hty : newT.type <;> rw [hty] at h <;>
      exact updateAccounts_nonneg_db _ _ _ _ _ h hpos
  · injection h with h
    subst h
    exact hpos

theorem fireUpdateTriggers_nonneg (s : TxStatus) (now : Nat) :
    ∀ (l : List Transaction) (db db' : DB),
      fireUpdateTriggers s now l db = .ok db' →
      (∀ a ∈ db.accounts, 0 ≤ a.balance) →
      ∀ a ∈ db'.accounts, 0 ≤ a.balance := by
  intro l
  induction l with
  | nil =>
    intro db db' h hpos
    injection h with h
    subst h
    exact hpos
  | cons oldT rest ih =>
    intro db db' h hpos
    unfold fireUpdateTriggers at h
    simp only at h
    split at h
    · exact absurd h (by simp)
    · rename_i db2 heq
      exact ih _ _ h (update_account_balance_nonneg _ _ _ _ _ heq hpos)

theorem setStatus_nonneg (txId : Nat) (s : TxStatus) (actorRole : Role)
    (now : Nat) (db db' : DB)
    (h : setTransactionStatus txId s actorRole now db = .ok db')
    (hpos : ∀ a ∈ db.accounts, 0 ≤ a.balance) :
    ∀ a ∈ db'.accounts, 0 ≤ a.balance := by
  unfold setTransactionStatus at h
  split at h
  · exact fireUpdateTriggers_nonneg _ _ _ _ _ h hpos
  · injection h with h
    subst h
    exact hpos

theorem createTransaction_accounts (txId ownerId : Nat) (ty : TxType)
    (amount : Int) (descr : String) (actorId now : Nat) (db db' : DB)
    (h : createTransaction txId ownerId ty amount descr actorId now db = .ok db') :
    db'.accounts = db.accounts := by
  unfold createTransaction at h
  split at h
  · exact absurd h (by simp)
  · split at h
    · exact absurd h (by simp)
    · split at h
      · exact absurd h (by simp)
      · injection h with h
        subst h
        rfl

theorem applyOp_nonneg (db : DB) (op : Op)
    (hpos : ∀ a ∈ db.accounts, 0 ≤ a.balance) :
    ∀ a ∈ (applyOp db op).accounts, 0 ≤ a.balance := by
  unfold applyOp
  cases h : runOp db op with
  | error e => exact hpos
  | ok db' =>
    cases op with
    | create txId ownerId ty amount descr actorId now =>
      rw [createTransaction_accounts txId ownerId ty amount descr actorId now db db' h]
      exact hpos
    | setStatus txId s r now => exact setStatus_nonneg txId s r now db db' h hpos

theorem applyAcctUpdate_ok_shape (uid : Nat) (delta : Int) (now : Nat)
    (db db' : DB) (h : applyAcctUpdate uid delta now db = .ok db') :
    db'.accounts = db.accounts.map
      (fun b => if b.user_id == uid then applyDelta delta now b else b) := by
  unfold applyAcctUpdate at h
  cases hu : updateAccounts uid delta now db.accounts with
  | error e => rw [hu] at h; exact absurd h (by simp)
  | ok p =>
    obtain ⟨accts, lgs⟩ := p
    rw [hu] at h
    injection h with h
    subst h
    unfold updateAccounts at hu
    split at hu
    · exact absurd hu (by simp)
    · injection hu with hu
      injection hu with hu1 hu2
      rw [← hu1]

theorem update_account_balance_accounts_shape (oldT newT : Transaction)
    (now : Nat) (db db2 : DB)
    (h : update_account_balance oldT newT now db = .ok db2) :
    db2.accounts = db.accounts ∨
      ∃ delta, db2.accounts = db.accounts.map
        (fun b => if b.user_id == newT.user_id then applyDelta delta now b else b) := by
  unfold update_account_balance at h
  split at h
  · cases hty : newT.type <;> rw [hty] at h <;>
      exact Or.inr ⟨_, applyAcctUpdate_ok_shape _ _ _ _ _ h⟩
  · injection h with h
    subst h
    exact Or.inl rfl

/-- A successful status update touches at most the accounts of the single
matched transaction's owner: the resulting accounts table is either
untouched or a per-owner balance rewrite of the old one. -/
theorem setStatus_accounts_shape (s : TxStatus) (actorRole : Role) (now : Nat)
    (db db' : DB) (t : Transaction)
    (ht : t ∈ db.transactions)
    (hndt : (db.transactions.map Transaction.id).Nodup)
    (hok : setTransactionStatus t.id s actorRole now db = .ok db') :
    db'.accounts = db.accounts ∨
      ∃ delta, db'.accounts = db.accounts.map
        (fun b => if b.user_id == t.user_id then applyDelta delta now b else b) := by
  by_cases hrole : actorRole = Role.admin ∨ actorRole = Role.staff
  · have hm : db.transactions.filter (fun x => x.id == t.id) = [t] :=
      filter_key_singleton Transaction.id db.transactions hndt t ht
    simp only [setTransactionStatus] at hok
    rw [if_pos hrole, hm] at hok
    simp only [fireUpdateTriggers] at hok
    split at hok
    · exact absurd hok (by simp)
    · rename_i db2 hub
      injection hok with hok
      subst hok
      have hshape := update_account_balance_accounts_shape _ _ _ _ _ hub
      exact hshape
  · rw [setStatus_unauthorized _ _ _ _ _ hrole] at hok
    injection hok with hok
    subst hok
    exact Or.inl rfl

/-! ## Concrete sample data for instantiating the theorems -/

/-- A pending payment of 100.00 (10000 minor units). -/
def wTx : Transaction :=
  { id := 1, user_id := 10, type := TxType.payment, amount := 10000,
    description := "tuition", status := TxStatus.pending,
    approved_by := none, created_at := 0 }

/-- The payer's account with balance 5.00. -/
def wAcct : Account :=
  { id := 5, user_id := 10, balance := 500, last_updated := 0, created_at := 0 }

def wDb : DB := { transactions := [wTx], accounts := [wAcct], logs := [] }

/-- A pending fee of 30.00, larger than `wAcct`'s balance of 5.00. -/
def wFee : Transaction :=
  { id := 2, user_id := 10, type := TxType.fee, amount := 3000,
    description := "lab fee", status := TxStatus.pending,
    approved_by := none, created_at := 0 }

def wFeeDb : DB := { transactions := [wFee], accounts := [wAcct], logs := [] }

/-- An already-approved (terminal) transaction. -/
def c2Tx : Transaction :=
  { id := 3, user_id := 11, type := TxType.payment, amount := 100,
    description := "old", status := TxStatus.approved,
    approved_by := none, created_at := 0 }

def c2Acct : Account :=
  { id := 6, user_id := 11, balance := 40, last_updated := 0, created_at := 0 }

def c2Db : DB := { transactions := [c2Tx], accounts := [c2Acct], logs := [] }

/-- A pending transaction whose owner has no account row. -/
def wOrphan : Transaction :=
  { id := 4, user_id := 99, type := TxType.payment, amount := 700,
    description := "orphan", status := TxStatus.pending,
    approved_by := none, created_at := 0 }

def wOrphanDb : DB := { transactions := [wOrphan], accounts := [wAcct], logs := [] }

/-! ## Claims -/

/-- C1: For every transaction whose status transitions from pending to
approved, the owner's account balance changes by exactly `+amount` when
`type = payment` and by exactly `-amount` when the type is `fee` or
`fine` — and by nothing otherwise (no other transaction types exist, so
the delta match is exhaustive). -/
theorem pending_approval_applies_exact_delta
    (db : DB) (t : Transaction) (a : Account) (actorRole : Role) (now : Nat)
    (hrole : actorRole = Role.admin ∨ actorRole = Role.staff)
    (ht : t ∈ db.transactions) (hpend : t.status = TxStatus.pending)
    (hndt : (db.transactions.map Transaction.id).Nodup)
    (ha : a ∈ db.accounts) (hau : a.user_id = t.user_id)
    (hnda : (db.accounts.map Account.user_id).Nodup)
    (hfunds : 0 ≤ a.balance + txDelta t) :
    ∃ db', setTransactionStatus t.id TxStatus.approved actorRole now db = .ok db' ∧
      ∃ a' ∈ db'.accounts, a'.id = a.id ∧ a'.user_id = a.user_id ∧
        a'.balance = a.balance + (match t.type with
          | TxType.payment => t.amount
          | TxType.fee => -t.amount
          | TxType.fine => -t.amount) := by
  refine ⟨_, setStatus_approve_pending_eq db t a actorRole now hrole ht hpend hndt
    ha hau hnda hfunds, ?_⟩
  refine ⟨applyDelta (txDelta t) now a, ?_, rfl, rfl, ?_⟩
  · dsimp only
    exact List.mem_map.mpr ⟨a, ha, by rw [if_pos (by simpa using hau)]⟩
  · show a.balance + txDelta t = _
    rfl

theorem pending_approval_applies_exact_delta_witness :
    wTx.status = TxStatus.pending ∧ 0 ≤ wAcct.balance + txDelta wTx ∧
    (∃ db', setTransactionStatus wTx.id TxStatus.approved Role.admin 7 wDb = .ok db' ∧
      ∃ a' ∈ db'.accounts, a'.id = wAcct.id ∧ a'.user_id = wAcct.user_id ∧
        a'.balance = wAcct.balance + (match wTx.type with
          | TxType.payment => wTx.amount
          | TxType.fee => -wTx.amount
          | TxType.fine => -wTx.amount)) :=
  ⟨rfl, by decide,
    pending_approval_applies_exact_delta wDb wTx wAcct Role.admin 7 (Or.inl rfl)
      (by decide) rfl (by decide) (by decide) rfl (by decide) (by decide)⟩

/-- C2 counterexample: the claim says a status change on a non-pending
transaction fails with `InvalidTransition` and leaves the status
unchanged.  On the code, `handleStatusChange` issues a plain UPDATE with
no status precondition and the only UPDATE policy checks the actor's role
alone, so changing an already-approved transaction to rejected succeeds
and mutates the stored status. -/
theorem nonpending_update_succeeds_counterexample :
    c2Tx.status ≠ TxStatus.pending ∧
    setTransactionStatus c2Tx.id TxStatus.rejected Role.admin 7 c2Db =
      .ok { transactions := [{ c2Tx with status := TxStatus.rejected }],
            accounts := [c2Acct],
            logs := [txUpdateLog c2Tx { c2Tx with status := TxStatus.rejected }] } := by
  constructor
  · decide
  · rfl

/-- C2 (amended): a `setTransactionStatus` call on a non-pending
transaction by an admin or staff actor does **not** fail: it succeeds,
rewrites the stored status to the requested value (terminal states are
not immutable), and leaves every account balance unchanged, because the
balance trigger fires only on a `pending → approved` transition. -/
theorem nonpending_update_changes_status_not_balance
    (db : DB) (t : Transaction) (s : TxStatus) (actorRole : Role) (now : Nat)
    (hrole : actorRole = Role.admin ∨ actorRole = Role.staff)
    (ht : t ∈ db.transactions) (hnp : t.status ≠ TxStatus.pending)
    (hndt : (db.transactions.map Transaction.id).Nodup) :
    ∃ db', setTransactionStatus t.id s actorRole now db = .ok db' ∧
      db'.accounts = db.accounts ∧
      { t with status := s } ∈ db'.transactions := by
  refine ⟨_, setStatus_noop_eq db t s actorRole now hrole ht hndt
    (fun hc => hnp hc.2), rfl, ?_⟩
  dsimp only
  exact List.mem_map.mpr ⟨t, ht, by rw [if_pos (by simp)]⟩

theorem nonpending_update_changes_status_not_balance_witness :
    c2Tx.status ≠ TxStatus.pending ∧
    (∃ db', setTransactionStatus c2Tx.id TxStatus.rejected Role.admin 7 c2Db = .ok db' ∧
      db'.accounts = c2Db.accounts ∧
      { c2Tx with status := TxStatus.rejected } ∈ db'.transactions) :=
  ⟨by decide,
    nonpending_update_changes_status_not_balance c2Db c2Tx TxStatus.rejected
      Role.admin 7 (Or.inl rfl) (by decide) (by decide) (by decide)⟩

/-- C3: approving a pending fee or fine whose amount exceeds the owner's
balance aborts: the debit violates the `valid_balance` CHECK constraint
(`balance >= 0`) — the system's `InsufficientFunds` failure — the whole
statement errors, and no state is produced, so the balance is unchanged. -/
theorem insufficient_funds_approval_fails
    (db : DB) (t : Transaction) (a : Account) (actorRole : Role) (now : Nat)
    (hrole : actorRole = Role.admin ∨ actorRole = Role.staff)
    (ht : t ∈ db.transactions) (hpend : t.status = TxStatus.pending)
    (hty : t.type = TxType.fee ∨ t.type = TxType.fine)
    (hndt : (db.transactions.map Transaction.id).Nodup)
    (ha : a ∈ db.accounts) (hau : a.user_id = t.user_id)
    (hins : a.balance < t.amount) :
    setTransactionStatus t.id TxStatus.approved actorRole now db =
      .error (DbError.checkViolation "valid_balance") := by
  have hm : db.transactions.filter (fun x => x.id == t.id) = [t] :=
    filter_key_singleton Transaction.id db.transactions hndt t ht
  simp only [setTransactionStatus]
  rw [if_pos hrole, hm, fireUpdateTriggers_singleton_approve t now _ hpend]
  apply applyAcctUpdate_err
  apply updateAccounts_err_of_overdraft _ _ _ _ a ha hau
  rcases hty with h | h <;> simp only [txDelta, h] <;> omega

theorem insufficient_funds_approval_fails_witness :
    wFee.type = TxType.fee ∧ wAcct.balance < wFee.amount ∧
    setTransactionStatus wFee.id TxStatus.approved Role.staff 7 wFeeDb =
      .error (DbError.checkViolation "valid_balance") :=
  ⟨rfl, by decide,
    insufficient_funds_approval_fails wFeeDb wFee wAcct Role.staff 7 (Or.inr rfl)
      (by decide) rfl (Or.inl rfl) (by decide) (by decide) rfl (by decide)⟩

/-- C5: a `pending → rejected` transition leaves the accounts table —
hence every account balance — exactly as it was: the balance trigger's
condition requires the new status to be `approved`, so rejection performs
no balance change. -/
theorem reject_pending_changes_no_balance
    (db : DB) (t : Transaction) (actorRole : Role) (now : Nat)
    (hrole : actorRole = Role.admin ∨ actorRole = Role.staff)
    (ht : t ∈ db.transactions) (_hpend : t.status = TxStatus.pending)
    (hndt : (db.transactions.map Transaction.id).Nodup) :
    ∃ db', setTransactionStatus t.id TxStatus.rejected actorRole now db = .ok db' ∧
      db'.accounts = db.accounts := by
  refine ⟨_, setStatus_noop_eq db t TxStatus.rejected actorRole now hrole ht hndt
    (fun hc => absurd hc.1 (by decide)), rfl⟩

theorem reject_pending_changes_no_balance_witness :
    wTx.status = TxStatus.pending ∧
    (∃ db', setTransactionStatus wTx.id TxStatus.rejected Role.admin 7 wDb = .ok db' ∧
      db'.accounts = wDb.accounts) :=
  ⟨rfl, reject_pending_changes_no_balance wDb wTx Role.admin 7 (Or.inl rfl)
    (by decide) rfl (by decide)⟩

/-- C9: approving a pending transaction whose owner has no account row
succeeds without any error — the balance trigger's `UPDATE accounts`
matches zero rows, which is not an error in SQL — and no account balance
changes. -/
theorem approve_without_account_row_ok
    (db : DB) (t : Transaction) (actorRole : Role) (now : Nat)
    (hrole : actorRole = Role.admin ∨ actorRole = Role.staff)
    (ht : t ∈ db.transactions) (hpend : t.status = TxStatus.pending)
    (hndt : (db.transactions.map Transaction.id).Nodup)
    (hnoacct : ∀ a ∈ db.accounts, a.user_id ≠ t.user_id) :
    ∃ db', setTransactionStatus t.id TxStatus.approved actorRole now db = .ok db' ∧
      db'.accounts = db.accounts :=
  ⟨_, setStatus_approve_noacct_eq db t actorRole now hrole ht hpend hndt hnoacct, rfl⟩

theorem approve_without_account_row_ok_witness :
    wOrphan.status = TxStatus.pending ∧
    (∀ a ∈ wOrphanDb.accounts, a.user_id ≠ wOrphan.user_id) ∧
    (∃ db', setTransactionStatus wOrphan.id TxStatus.approved Role.admin 7 wOrphanDb
        = .ok db' ∧ db'.accounts = wOrphanDb.accounts) :=
  ⟨rfl, by decide,
    approve_without_account_row_ok wOrphanDb wOrphan Role.admin 7 (Or.inl rfl)
      (by decide) rfl (by decide) (by decide)⟩

/-- C4: approving the same transaction twice yields the same accounts
table as approving it once: the second UPDATE sees the row already
approved, the trigger's `OLD.status = 'pending'` condition fails, and no
balance delta is reapplied. -/
theorem approving_twice_is_idempotent_on_balances
    (db db1 : DB) (txId : Nat) (actorRole : Role) (now1 now2 : Nat)
    (hndt : (db.transactions.map Transaction.id).Nodup)
    (h1 : setTransactionStatus txId TxStatus.approved actorRole now1 db = .ok db1) :
    ∃ db2, setTransactionStatus txId TxStatus.approved actorRole now2 db1 = .ok db2 ∧
      db2.accounts = db1.accounts := by
  by_cases hrole : actorRole = Role.admin ∨ actorRole = Role.staff
  · rcases filter_key_cases Transaction.id db.transactions hndt txId with
      hnil | ⟨t, htl, htid, hone⟩
    · rw [setStatus_nomatch_eq txId TxStatus.approved actorRole now1 db hnil] at h1
      injection h1 with h1
      subst h1
      exact ⟨_, setStatus_nomatch_eq txId TxStatus.approved actorRole now2 _ hnil,
        rfl⟩
    · simp only [setTransactionStatus] at h1
      rw [if_pos hrole, hone] at h1
      have htx : db1.transactions = db.transactions.map
          (fun x => if x.id == txId then { x with status := TxStatus.approved } else x) :=
        fireUpdateTriggers_transactions _ _ _ _ _ h1
      have ht' : ({ t with status := TxStatus.approved } : Transaction)
          ∈ db1.transactions := by
        rw [htx]
        have hmem := List.mem_map_of_mem
          (fun x => if x.id == txId then { x with status := TxStatus.approved } else x) htl
        simpa [htid] using hmem
      have hnd1 : (db1.transactions.map Transaction.id).Nodup := by
        rw [htx, List.map_map]
        have hcomp : (Transaction.id ∘ fun x =>
            if x.id == txId then { x with status := TxStatus.approved } else x)
            = Transaction.id := by
          funext x
          exact setStatusFun_id txId TxStatus.approved x
        rw [hcomp]
        exact hndt
      have e2 := setStatus_noop_eq db1 { t with status := TxStatus.approved }
        TxStatus.approved actorRole now2 hrole ht' hnd1
        (fun hc => nomatch hc.2)
      rw [show ({ t with status := TxStatus.approved } : Transaction).id = txId
        from htid] at e2
      exact ⟨_, e2, rfl⟩
  · rw [setStatus_unauthorized _ _ _ _ _ hrole] at h1
    injection h1 with h1
    subst h1
    exact ⟨_, setStatus_unauthorized _ _ _ _ _ hrole, rfl⟩

/-- The database produced by approving `wTx` in `wDb` at time 7. -/
def wDb1 : DB :=
  { transactions := [{ wTx with status := TxStatus.approved }],
    accounts := [{ wAcct with balance := 10500, last_updated := 7 }],
    logs := [txUpdateLog wTx { wTx with status := TxStatus.approved },
             acctUpdateLog wAcct { wAcct with balance := 10500, last_updated := 7 }] }

theorem approving_twice_is_idempotent_on_balances_witness :
    setTransactionStatus wTx.id TxStatus.approved Role.admin 7 wDb = .ok wDb1 ∧
    (∃ db2, setTransactionStatus wTx.id TxStatus.approved Role.admin 8 wDb1 = .ok db2 ∧
      db2.accounts = wDb1.accounts) :=
  ⟨rfl,
    approving_twice_is_idempotent_on_balances wDb wDb1 wTx.id Role.admin 7 8
      (by decide) rfl⟩

/-- C6: every account balance stays ≥ 0 along any sequence of operations:
the `valid_balance` CHECK (`balance >= 0`) aborts — and thereby rolls
back — any statement that would drive a balance negative, so
non-negativity is preserved from any non-negative starting state. -/
theorem balances_stay_nonneg
    (ops : List Op) (db : DB) (hpos : ∀ a ∈ db.accounts, 0 ≤ a.balance) :
    ∀ a ∈ (runOps db ops).accounts, 0 ≤ a.balance := by
  induction ops generalizing db with
  | nil => exact hpos
  | cons op rest ih => exact ih (applyOp db op) (applyOp_nonneg db op hpos)

theorem balances_stay_nonneg_witness :
    (∀ a ∈ wDb.accounts, 0 ≤ a.balance) ∧
    (∀ a ∈ (runOps wDb
        [Op.create 8 10 TxType.fee 200 "printing fee" 10 1,
         Op.setStatus 8 TxStatus.approved Role.admin 2,
         Op.setStatus 1 TxStatus.approved Role.staff 3]).accounts,
      0 ≤ a.balance) :=
  ⟨by decide, balances_stay_nonneg _ wDb (by decide)⟩

/-- The row inserted by `createTransaction` (status initialized to
pending, `approved_by` NULL). -/
def newTxRow (txId ownerId : Nat) (ty : TxType) (amount : Int) (descr : String)
    (now : Nat) : Transaction :=
  { id := txId, user_id := ownerId, type := ty, amount := amount,
    description := descr, status := TxStatus.pending, approved_by := none,
    created_at := now }

/-- C7: each row mutation appends exactly one audit record whose
`old_data`/`new_data` snapshots are the row states immediately before and
after the mutation, stated for every mutation the application performs:
(1) a transaction INSERT appends one `transactions_INSERT` record
(`old_data` NULL, `new_data` the inserted row); (2) a funded approval
performs one transaction UPDATE and one account UPDATE and appends
exactly one record per mutated row, in that order, snapshots matching;
(3) any other successful status update that matches a row — rejection of
a pending transaction included — mutates only that transaction row and
appends exactly its one record; (4) an approval whose owner has no
account row mutates only the transaction row and appends exactly its one
record.  (No code path deletes rows, and no DELETE policy exists, so
deletes are out of reach.) -/
theorem each_mutation_appends_one_audit_record :
    (∀ (db : DB) (txId ownerId : Nat) (ty : TxType) (amount : Int)
        (descr : String) (actorId now : Nat) (db' : DB),
        createTransaction txId ownerId ty amount descr actorId now db = .ok db' →
        db'.logs = db.logs ++
          [txInsertLog (newTxRow txId ownerId ty amount descr now)]) ∧
    (∀ (db : DB) (t : Transaction) (a : Account) (actorRole : Role) (now : Nat),
        (actorRole = Role.admin ∨ actorRole = Role.staff) →
        t ∈ db.transactions → t.status = TxStatus.pending →
        (db.transactions.map Transaction.id).Nodup →
        a ∈ db.accounts → a.user_id = t.user_id →
        (db.accounts.map Account.user_id).Nodup →
        0 ≤ a.balance + txDelta t →
        ∃ db', setTransactionStatus t.id TxStatus.approved actorRole now db = .ok db' ∧
          db'.logs = db.logs ++
            [txUpdateLog t { t with status := TxStatus.approved },
             acctUpdateLog a (applyDelta (txDelta t) now a)]) ∧
    (∀ (db : DB) (t : Transaction) (s : TxStatus) (actorRole : Role) (now : Nat),
        (actorRole = Role.admin ∨ actorRole = Role.staff) →
        t ∈ db.transactions →
        (db.transactions.map Transaction.id).Nodup →
        ¬(s = TxStatus.approved ∧ t.status = TxStatus.pending) →
        ∃ db', setTransactionStatus t.id s actorRole now db = .ok db' ∧
          db'.logs = db.logs ++ [txUpdateLog t { t with status := s }]) ∧
    (∀ (db : DB) (t : Transaction) (actorRole : Role) (now : Nat),
        (actorRole = Role.admin ∨ actorRole = Role.staff) →
        t ∈ db.transactions → t.status = TxStatus.pending →
        (db.transactions.map Transaction.id).Nodup →
        (∀ a ∈ db.accounts, a.user_id ≠ t.user_id) →
        ∃ db', setTransactionStatus t.id TxStatus.approved actorRole now db = .ok db' ∧
          db'.logs = db.logs ++ [txUpdateLog t { t with status := TxStatus.approved }]) := by
  refine ⟨?_, ?_, ?_, ?_⟩
  · intro db txId ownerId ty amount descr actorId now db' h
    unfold createTransaction at h
    split at h
    · exact absurd h (by simp)
    · split at h
      · exact absurd h (by simp)
      · split at h
        · exact absurd h (by simp)
        · injection h with h
          subst h
          rfl
  · intro db t a actorRole now hrole ht hpend hndt ha hau hnda hfunds
    exact ⟨_, setStatus_approve_pending_eq db t a actorRole now hrole ht hpend hndt
      ha hau hnda hfunds, rfl⟩
  · intro db t s actorRole now hrole ht hndt hnofire
    exact ⟨_, setStatus_noop_eq db t s actorRole now hrole ht hndt hnofire, rfl⟩
  · intro db t actorRole now hrole ht hpend hndt hnoacct
    exact ⟨_, setStatus_approve_noacct_eq db t actorRole now hrole ht hpend hndt
      hnoacct, rfl⟩

/-- The transaction inserted by the C7 witness. -/
def wNewTx : Transaction :=
  { id := 9, user_id := 10, type := TxType.fine, amount := 150,
    description := "late fine", status := TxStatus.pending,
    approved_by := none, created_at := 4 }

def wDbCreated : DB :=
  { transactions := wDb.transactions ++ [wNewTx],
    accounts := wDb.accounts,
    logs := wDb.logs ++ [txInsertLog wNewTx] }

theorem each_mutation_appends_one_audit_record_witness :
    (wDbCreated.logs = wDb.logs ++ [txInsertLog wNewTx]) ∧
    (∃ db', setTransactionStatus wTx.id TxStatus.approved Role.admin 7 wDb = .ok db' ∧
      db'.logs = wDb.logs ++
        [txUpdateLog wTx { wTx with status := TxStatus.approved },
         acctUpdateLog wAcct (applyDelta (txDelta wTx) 7 wAcct)]) ∧
    (∃ db', setTransactionStatus wTx.id TxStatus.rejected Role.admin 7 wDb = .ok db' ∧
      db'.logs = wDb.logs ++ [txUpdateLog wTx { wTx with status := TxStatus.rejected }]) ∧
    (∃ db', setTransactionStatus wOrphan.id TxStatus.approved Role.admin 7 wOrphanDb
        = .ok db' ∧
      db'.logs = wOrphanDb.logs ++
        [txUpdateLog wOrphan { wOrphan with status := TxStatus.approved }]) :=
  ⟨each_mutation_appends_one_audit_record.1 wDb 9 10 TxType.fine 150
      "late fine" 10 4 wDbCreated rfl,
   each_mutation_appends_one_audit_record.2.1 wDb wTx wAcct Role.admin 7 (Or.inl rfl)
     (by decide) rfl (by decide) (by decide) rfl (by decide) (by decide),
   each_mutation_appends_one_audit_record.2.2.1 wDb wTx TxStatus.rejected Role.admin 7
     (Or.inl rfl) (by decide) (by decide) (fun hc => absurd hc.1 (by decide)),
   each_mutation_appends_one_audit_record.2.2.2 wOrphanDb wOrphan Role.admin 7
     (Or.inl rfl) (by decide) rfl (by decide) (by decide)⟩

/-- An admin row that carries a `student_id` and still satisfies the
`student_id_required` CHECK constraint. -/
def c8User : User :=
  { id := 1, role := Role.admin, full_name := "Ama", student_id := some "ST-1",
    department := none }

/-- C8 counterexample: the `student_id_required` CHECK accepts an admin
carrying a `student_id`, so presence of `student_id` is **not** restricted
to students: the constraint enforces only the forward direction. -/
theorem student_id_only_if_student_counterexample :
    student_id_required c8User = true ∧
    c8User.role ≠ Role.student ∧ c8User.student_id.isSome = true := by decide

/-- C8 (amended): the constraint guarantees only that every user with
role `student` has a `student_id`; users with role admin or staff may
also carry one. -/
theorem student_role_implies_student_id
    (u : User) (hc : student_id_required u = true)
    (hs : u.role = Role.student) :
    u.student_id.isSome = true := by
  unfold student_id_required at hc
  simp only [hs] at hc
  simpa using hc

/-- A student row satisfying the constraint. -/
def c8Student : User :=
  { id := 2, role := Role.student, full_name := "Kofi",
    student_id := some "ST-2", department := some "CS" }

theorem student_role_implies_student_id_witness :
    student_id_required c8Student = true ∧ c8Student.student_id.isSome = true :=
  ⟨by decide, student_role_implies_student_id c8Student (by decide) rfl⟩

theorem get_congr_of_eq {α : Type} (l l' : List α) (h : l' = l) (i : Nat)
    (h1 : i < l.length) (h2 : i < l'.length) :
    l'.get ⟨i, h2⟩ = l.get ⟨i, h1⟩ := by
  subst h
  rfl

/-- C10: a successful approval statement modifies at most the single
account owned by the transaction's owner, and of that account only the
`balance` and `last_updated` fields: positionally, every account keeps
its `id`, `user_id` and `created_at`, and every account whose `user_id`
differs from the owner's is entirely unchanged. -/
theorem approval_touches_only_owner_balance
    (db db' : DB) (t : Transaction) (actorRole : Role) (now : Nat)
    (ht : t ∈ db.transactions)
    (hndt : (db.transactions.map Transaction.id).Nodup)
    (hok : setTransactionStatus t.id TxStatus.approved actorRole now db = .ok db') :
    db'.accounts.length = db.accounts.length ∧
    ∀ (i : Nat) (h1 : i < db.accounts.length) (h2 : i < db'.accounts.length),
      (db'.accounts.get ⟨i, h2⟩).id = (db.accounts.get ⟨i, h1⟩).id ∧
      (db'.accounts.get ⟨i, h2⟩).user_id = (db.accounts.get ⟨i, h1⟩).user_id ∧
      (db'.accounts.get ⟨i, h2⟩).created_at = (db.accounts.get ⟨i, h1⟩).created_at ∧
      ((db.accounts.get ⟨i, h1⟩).user_id ≠ t.user_id →
        db'.accounts.get ⟨i, h2⟩ = db.accounts.get ⟨i, h1⟩) := by
  rcases setStatus_accounts_shape TxStatus.approved actorRole now db db' t ht hndt hok
    with hsame | ⟨delta, hmap⟩
  · refine ⟨by rw [hsame], ?_⟩
    intro i h1 h2
    have heq : db'.accounts.get ⟨i, h2⟩ = db.accounts.get ⟨i, h1⟩ :=
      get_congr_of_eq db.accounts db'.accounts hsame i h1 h2
    rw [heq]
    exact ⟨rfl, rfl, rfl, fun _ => rfl⟩
  · refine ⟨by rw [hmap, List.length_map], ?_⟩
    intro i h1 h2
    have h2' : i < (db.accounts.map
        (fun b => if b.user_id == t.user_id then applyDelta delta now b else b)).length := by
      rw [List.length_map]
      exact h1
    have hget : db'.accounts.get ⟨i, h2⟩ =
        if (db.accounts.get ⟨i, h1⟩).user_id == t.user_id then
          applyDelta delta now (db.accounts.get ⟨i, h1⟩)
        else db.accounts.get ⟨i, h1⟩ := by
      rw [get_congr_of_eq _ db'.accounts hmap i h2' h2]
      simp only [List.get_eq_getElem, List.getElem_map]
    rw [hget]
    by_cases hb : ((db.accounts.get ⟨i, h1⟩).user_id == t.user_id) = true
    · rw [if_pos hb]
      exact ⟨rfl, rfl, rfl, fun hne => absurd (by simpa using hb) hne⟩
    · rw [if_neg hb]
      exact ⟨rfl, rfl, rfl, fun _ => rfl⟩

theorem approval_touches_only_owner_balance_witness :
    wTx ∈ wDb.transactions ∧
    (wDb1.accounts.length = wDb.accounts.length ∧
    ∀ (i : Nat) (h1 : i < wDb.accounts.length) (h2 : i < wDb1.accounts.length),
      (wDb1.accounts.get ⟨i, h2⟩).id = (wDb.accounts.get ⟨i, h1⟩).id ∧
      (wDb1.accounts.get ⟨i, h2⟩).user_id = (wDb.accounts.get ⟨i, h1⟩).user_id ∧
      (wDb1.accounts.get ⟨i, h2⟩).created_at = (wDb.accounts.get ⟨i, h1⟩).created_at ∧
      ((wDb.accounts.get ⟨i, h1⟩).user_id ≠ wTx.user_id →
        wDb1.accounts.get ⟨i, h2⟩ = wDb.accounts.get ⟨i, h1⟩)) :=
  ⟨by decide,
    approval_touches_only_owner_balance wDb wDb1 wTx Role.admin 7 (by decide)
      (by decide) rfl⟩

end FinanceApp
